import Mathlib

/-!
Verification development for the MkDocs API-link processing hook
(`docs/process-api-links.py`).

The development shallowly embeds the two components of the hook:

* `buildNavigationMap` — the navigation-index builder
  (`_build_navigation_map`, lines 18-126 of the source), with the
  process-wide cache (`_NAV_MAP`, `_NAV_FETCH_FAILED`) made explicit as a
  `NavState` value threaded through calls, and the external collaborators
  (HTTP transport, HTML parser, fuzzy matcher, page metadata) abstracted
  as an `Env` record whose fallible members return `Except`.
* `onPageMarkdown` — the page rewriter (`on_page_markdown`, lines
  129-227), with the regex `\[([^\]]+)\]\((api:[^\)]+)\)` replaced by an
  equivalent deterministic scanner (`tryMatch` / `subLoopF`) and the
  diagnostic `print` calls replaced by an output list of `Diag` values.

String operations are modelled character-exactly on `List Char`
(Python `str` indexing is by character, as is `String.data` here).
-/

/-- Characters treated as whitespace by Python's `str.strip()` and the
regex class `\s` (restricted to the ASCII range; the navigation keys and
display texts processed by the hook are ASCII). -/
def isPySpace (c : Char) : Bool :=
  c = ' ' || c = '\t' || c = '\n' || c = '\x0d' || c = '\x0b' || c = '\x0c'

/-- Python `s.strip()`: remove leading and trailing whitespace. -/
def pyStrip (s : String) : String :=
  ⟨((s.data.dropWhile isPySpace).reverse.dropWhile isPySpace).reverse⟩

/-- Collapse every maximal run of whitespace characters to a single
hyphen; models `re.sub(r"\s+", "-", s)` from line 221 of the source. -/
def collapseWs : List Char → List Char
  | [] => []
  | [c] => if isPySpace c then ['-'] else [c]
  | c :: d :: cs =>
    if isPySpace c then
      if isPySpace d then collapseWs (d :: cs) else '-' :: collapseWs (d :: cs)
    else c :: collapseWs (d :: cs)

/-- String wrapper for `collapseWs`. -/
def collapseRuns (s : String) : String := ⟨collapseWs s.data⟩

/-- `isPrefixL p cs` holds when `p` is a prefix of `cs` (Boolean). -/
def isPrefixL : List Char → List Char → Bool
  | [], _ => true
  | _ :: _, [] => false
  | p :: ps, c :: cs => p = c && isPrefixL ps cs

/-- Python `s.startswith(pat)`. -/
def strStartsWith (s pat : String) : Bool := isPrefixL pat.data s.data

/-- Split a character list at the first occurrence of the separator
`sep`: returns the part before it and the part after it, or `none` when
`sep` does not occur.  Models Python `s.find(sep)` / `s.split(sep, 1)`. -/
def splitOnceL (sep : List Char) : List Char → Option (List Char × List Char)
  | [] => none
  | c :: cs =>
    if isPrefixL sep (c :: cs) then some ([], (c :: cs).drop sep.length)
    else
      match splitOnceL sep cs with
      | none => none
      | some (pre, post) => some (c :: pre, post)

/-- Python `s.split(sep, 1)` packaged as the part before the first
occurrence of `sep` and, when `sep` occurs, the remainder after it. -/
def splitOnce (s sep : String) : String × Option String :=
  match splitOnceL sep.data s.data with
  | none => (s, none)
  | some (pre, post) => (⟨pre⟩, some ⟨post⟩)

/-- Python `sep in s` for a string separator. -/
def containsSub (s sep : String) : Bool := (splitOnce s sep).2.isSome

/-- Python `s.replace(a, b)` for a single-character pattern and
single-character replacement. -/
def replaceAllChar (a b : Char) (s : String) : String :=
  ⟨s.data.map (fun c => if c = a then b else c)⟩

/-- Python `s.replace("//", rep)` generalised to any two-character
pattern: leftmost, non-overlapping replacement. -/
def replaceDouble (a b : Char) (rep : List Char) : List Char → List Char
  | [] => []
  | [c] => [c]
  | c :: d :: cs =>
    if c = a ∧ d = b then rep ++ replaceDouble a b rep cs
    else c :: replaceDouble a b rep (d :: cs)

/-- Python `s.replace("//", ".")`. -/
def replaceDoubleSlashDot (s : String) : String := ⟨replaceDouble '/' '/' ['.'] s.data⟩

/-- Python `s.replace("//", ".").replace("/", ".")` (lines 112 and 194 of
the source). -/
def dotAll (s : String) : String := replaceAllChar '/' '.' (replaceDoubleSlashDot s)

/-- Python `s.rstrip("/")` (line 105 of the source). -/
def rstripSlashes (s : String) : String :=
  ⟨(s.data.reverse.dropWhile (fun c => c = '/')).reverse⟩

/-! ## Model of `urllib.parse.urljoin`

`urljoin` is an external standard-library collaborator.  It is modelled
here for the reference shapes that occur in this hook: a reference that
carries its own URL scheme is returned unchanged (Python returns `url`
verbatim whenever its scheme differs from the base scheme, as is the
case for every base used here, whose scheme is `https`); a
scheme-relative, root-relative or plain relative reference is resolved
against the base.  Dot-segment removal and the legacy same-scheme
relative form (`https:foo`) are elided: no navigation entry and no base
used by the hook exercises them. -/

/-- Characters allowed inside a URL scheme after the leading letter. -/
def isSchemeChar (c : Char) : Bool := c.isAlpha || c.isDigit || c = '+' || c = '-' || c = '.'

/-- Split off a candidate `scheme:` prefix: the characters before the
first `':'`, provided they are all scheme characters. -/
def schemeSplit : List Char → Option (List Char × List Char)
  | [] => none
  | c :: cs =>
    if c = ':' then some ([], cs)
    else if isSchemeChar c then
      match schemeSplit cs with
      | some (s, r) => some (c :: s, r)
      | none => none
    else none

/-- Whether `u` carries a URL scheme (a letter-led `scheme:` prefix). -/
def hasScheme (u : String) : Bool :=
  match schemeSplit u.data with
  | some (c :: _, _) => c.isAlpha
  | _ => false

/-- The scheme name of `u` (empty when there is none). -/
def schemeName (u : String) : List Char :=
  match schemeSplit u.data with
  | some (s, _) => s
  | none => []

/-- `scheme://authority` of an absolute URL `u`. -/
def schemeRoot (u : String) : String :=
  match schemeSplit u.data with
  | some (s, r) =>
    if isPrefixL ['/', '/'] r then ⟨s ++ [':', '/', '/'] ++ ((r.drop 2).takeWhile (fun c => c ≠ '/'))⟩
    else ⟨s ++ [':']⟩
  | none => ""

/-- The directory of `u`: everything up to and including the last `/`. -/
def dirOf (u : String) : String :=
  ⟨(u.data.reverse.dropWhile (fun c => c ≠ '/')).reverse⟩

/-- Model of `urllib.parse.urljoin base url` (see the section comment
above for the modelled fragment). -/
def urljoin (base url : String) : String :=
  if url = "" then base
  else if hasScheme url then url
  else if isPrefixL ['/', '/'] url.data then ⟨schemeName base ++ [':'] ++ url.data⟩
  else if url.data.headD ' ' = '/' then schemeRoot base ++ url
  else dirOf base ++ url

/-- The fixed navigation-document URL (line 37 of the source). -/
def NAV_URL : String := "https://api.koog.ai/navigation.html"

/-- The fixed base URL used to absolutise hit hrefs (line 140). -/
def BASE_URL : String := "https://api.koog.ai/"

/-! ## Navigation index builder -/

/-- One container element of the navigation document carrying a `pageid`
attribute.  `href` is the `href` of the first anchor found inside the
element's child `div` of class `toc--row`; it is `none` when that chain
(`toc--row` child, anchor, `href` attribute) is missing.  An empty-string
`href` is also skipped by the source (`if not href: continue`, line 75),
which `processEntry` reproduces. -/
structure NavEntry where
  pageid : String
  href : Option String
deriving DecidableEq, Repr

/-- The navigation index: a mapping from lookup key to resolved href,
in insertion order (a Python `dict` whose entries are only ever inserted
when absent, hence without duplicate keys). -/
abbrev NavMap := List (String × String)

/-- Python `dict.get`: the value of the first (and only) binding of `k`. -/
def dictGet (m : NavMap) (k : String) : Option String :=
  match m with
  | [] => none
  | (a, b) :: rest => if a = k then some b else dictGet rest k

/-- `if key not in result: result[key] = v` (lines 85-86, 92-93, 107-108,
113-114 of the source): insert preserving the first-inserted value. -/
def insertIfAbsent (m : NavMap) (k v : String) : NavMap :=
  if (dictGet m k).isSome then m else m ++ [(k, v)]

/-- The trimmed variant for a base key split as `before // after`
(lines 102-105): everything before the double slash plus the first path
segment after it; when that segment is empty, `before` with trailing
slashes stripped. -/
def trimmedOf (before after : String) : String :=
  if (splitOnce after "/").1 ≠ "" then before ++ "//" ++ (splitOnce after "/").1
  else rstripSlashes before

/-- The trimmed variant and its dotted form, contributed when the base
key contains `//` and the trimmed variant is nonempty (lines 98-114). -/
def trimKeys (key : String) : List String :=
  match splitOnce key "//" with
  | (_, none) => []
  | (before, some after) =>
    if trimmedOf before after ≠ "" then
      [trimmedOf before after, dotAll (trimmedOf before after)] else []

/-- All key variants of a pageid, in source insertion order: the base
key (the part before the first `///`), the dotted variant of the base
key when the pageid contained `///`, then the trimmed variants. -/
def variantKeys (pageid : String) : List String :=
  (splitOnce pageid "///").1 ::
    (if (splitOnce pageid "///").2.isSome then
      [replaceAllChar '/' '.' (splitOnce pageid "///").1] else []) ++
    trimKeys (splitOnce pageid "///").1

/-- The key variants an entry contributes together with the entry's
normalised href (lines 62-114).  Returns `none` for entries the loop
skips (empty pageid, missing or empty href). -/
def entryPlan (e : NavEntry) : Option (List String × String) :=
  if e.pageid = "" then none
  else
    match e.href with
    | none => none
    | some href =>
      if href = "" then none
      else some (variantKeys e.pageid, urljoin NAV_URL href)

/-- Process one navigation entry: insert each of its key variants, in
order, keeping already-present bindings (the body of the loop at lines
62-114). -/
def processEntry (m : NavMap) (e : NavEntry) : NavMap :=
  match entryPlan e with
  | none => m
  | some (ks, v) => ks.foldl (fun acc k => insertIfAbsent acc k v) m

/-- Build the navigation index from the parsed entries (lines 61-115). -/
def buildNavigationIndex (doc : List NavEntry) : NavMap :=
  doc.foldl processEntry []

/-! ## Cache state and external collaborators -/

/-- The process-wide cache of the builder, lines 14-15 of the source:
`_NAV_MAP` (`navMap`) and `_NAV_FETCH_FAILED` (`fetchFailed`). -/
structure NavState where
  navMap : Option NavMap
  fetchFailed : Bool
deriving DecidableEq, Repr

/-- The initial state of a fresh process. -/
def initState : NavState := ⟨none, false⟩

/-- The external collaborators of the hook, abstracted per the spec's
interface descriptions.  Fallible collaborators are `Except`-valued: an
`.error` models the collaborator raising an exception.

* `bs4Available` — whether the optional HTML-parsing dependency imported
  at lines 5-8 is present.
* `transport` — the HTTP fetch and lenient decode of the navigation
  document (lines 40-53): status code and decoded body, or an exception.
* `parseDoc` — the structured-element extraction performed with the HTML
  parser (lines 60-76), yielding per-element pageid and row-anchor href.
* `closeMatches` — the approximate string matcher
  (`difflib.get_close_matches(k, candidates, n, cutoff=0.6)`); an
  `.error` also covers a failing `import difflib` (lines 149-152).
* `pagePath` — the page metadata access
  `page.file.src_path` (lines 185-188); an `.error` models it raising. -/
structure Env where
  bs4Available : Bool
  transport : Except String (Nat × String)
  parseDoc : String → Except String (List NavEntry)
  closeMatches : String → List String → Nat → Except String (List String)
  pagePath : Except String String

/-- `_build_navigation_map` (lines 18-126), with the globals threaded as
state.  Returns the map (or `none` for the Python `None`) and the
updated cache state.  The collaborator exceptions caught by the source's
`try`/`except` blocks (fetch at lines 39-57, parse at lines 59-126) are
turned into the sticky failure sentinel. -/
def buildNavigationMap (env : Env) (st : NavState) : Option NavMap × NavState :=
  match st.navMap with
  | some m => (some m, st)
  | none =>
    if st.fetchFailed then (none, st)
    else if !env.bs4Available then (none, { st with fetchFailed := true })
    else
      match env.transport with
      | .error _ => (none, { st with fetchFailed := true })
      | .ok (status, html) =>
        if !(decide (200 ≤ status) && decide (status < 300)) then
          (none, { st with fetchFailed := true })
        else
          match env.parseDoc html with
          | .error _ => (none, { st with fetchFailed := true })
          | .ok entries =>
            let m := buildNavigationIndex entries
            (some m, { st with navMap := some m })

/-! ## Link resolver -/

/-- `_extract_project_prefix` (lines 145-146). -/
def extractProjectPfx (k : String) : String :=
  match splitOnce k "::" with
  | (p, some _) => p
  | (_, none) => ""

/-- The candidate keys handed to the fuzzy matcher (lines 154-157):
keys sharing the nonempty `::`-prefix of `k`, falling back to the full
key set when that filter selects nothing. -/
def suggestCandidates (m : NavMap) (k : String) : List String :=
  let pfx := extractProjectPfx k
  let cands := (m.map Prod.fst).filter
    (fun key => pfx ≠ "" && strStartsWith key (pfx ++ "::"))
  if cands = [] then m.map Prod.fst else cands

/-- `_suggest_keys` (lines 148-162): ask the fuzzy matcher for up to
`limit` suggestions; any exception from it (or from importing it)
yields the empty list. -/
def suggestKeys (env : Env) (m : NavMap) (k : String) (limit : Nat) : List String :=
  match env.closeMatches k (suggestCandidates m k) limit with
  | .ok l => l
  | .error _ => []

/-- The diagnostics the resolver prints on an unresolved key
(lines 190-215): the warning naming the key and the page, the
"did you mean" suggestions, and the mechanical variant hints. -/
inductive Diag where
  | unresolved (key pagePath : String)
  | didYouMean (suggestion : String)
  | variantHint (variant : String)
deriving DecidableEq, Repr

/-- The page path used in diagnostics: the guarded metadata access at
lines 185-188 (`'<unknown>'` when it is missing or raises). -/
def pagePathOf (env : Env) : String :=
  match env.pagePath with
  | .ok p => p
  | .error _ => "<unknown>"

/-- The mechanical variant hints of lines 193-203: the dotted form when
it differs from the key, and — when the key contains a period and a
`::` separator — the slash form of the part after the first `::`.
(Line 197's `key.replace('::', '::')` is the identity and is modelled
as such.) -/
def variantHints (key : String) : List String :=
  let dotted := dotAll key
  let l1 : List String := if dotted ≠ key then [dotted] else []
  let l2 : List String :=
    if replaceAllChar '.' '/' key ≠ key ∧ containsSub key "::" then
      match splitOnce key "::" with
      | (pfx, some rest) =>
        let sv := pfx ++ "::" ++ replaceAllChar '.' '/' rest
        if sv ≠ key then [sv] else []
      | (_, none) => []
    else []
  l1 ++ l2

/-- `dict.fromkeys` de-duplication preserving order (line 214). -/
def dedup (l : List String) : List String :=
  l.foldl (fun acc s => if s ∈ acc then acc else acc ++ [s]) []

/-- The original matched text `match.group(0)`:
`[txt](tgt)` reassembled from the two capture groups. -/
def matchGroup0 (txt tgt : List Char) : List Char :=
  '[' :: txt ++ ']' :: '(' :: tgt ++ [')']

/-- The result of one miss (lines 182-218): original text, unchanged
state, and the diagnostics in emission order. -/
def missResult (env : Env) (m : NavMap) (key : String) (orig : List Char)
    (st' : NavState) : List Char × NavState × List Diag :=
  (orig, st',
    Diag.unresolved key (pagePathOf env) ::
      ((suggestKeys env m key 5).map Diag.didYouMean ++
        (dedup (variantHints key)).map Diag.variantHint))

/-- `repl` (lines 164-225), for one regex match with capture groups
`txt` (display text) and `tgt` (target).  Returns the replacement text,
the updated cache state (the builder runs on first use, line 178), and
the diagnostics.  `(dictGet m key).getD ""` models `nav_map.get(key)`
followed by the falsy test `if not href` (line 183), which treats a
missing key and an empty stored href alike. -/
def repl (env : Env) (st : NavState) (txt tgt : List Char) :
    List Char × NavState × List Diag :=
  let orig := matchGroup0 txt tgt
  if !strStartsWith ⟨tgt⟩ "api:" then (orig, st, [])
  else
    let key := pyStrip ⟨tgt.drop 4⟩
    if key = "" then (orig, st, [])
    else
      let st' := (buildNavigationMap env st).2
      match (buildNavigationMap env st).1 with
      | none => (orig, st', [])
      | some m =>
        if m = [] then (orig, st', [])
        else
          let href := (dictGet m key).getD ""
          if href = "" then missResult env m key orig st'
          else
            let display := collapseRuns (pyStrip ⟨txt⟩)
            let resolved := urljoin BASE_URL href
            ('[' :: display.data ++ ']' :: '(' :: resolved.data ++ [')'], st', [])

/-- Whether a target group is acceptable to the regex:
`api:` followed by at least one character. -/
def isApiTarget (tgt : List Char) : Bool :=
  isPrefixL ['a', 'p', 'i', ':'] tgt && decide (5 ≤ tgt.length)

/-- Split a character list at the first occurrence of the character
`stop`: the part before it and the part after it. -/
def splitAtChar (stop : Char) : List Char → Option (List Char × List Char)
  | [] => none
  | c :: cs =>
    if c = stop then some ([], cs)
    else
      match splitAtChar stop cs with
      | none => none
      | some (pre, post) => some (c :: pre, post)

/-- Attempt the regex `\[([^\]]+)\]\((api:[^\)]+)\)` at the head of the
input; on success return the two capture groups and the remainder.  The
character classes exclude the closing delimiters, so the regex is
equivalent to this deterministic first-delimiter scan. -/
def tryMatch : List Char → Option (List Char × List Char × List Char)
  | [] => none
  | c :: cs1 =>
    if c = '[' then
      match splitAtChar ']' cs1 with
      | none => none
      | some (txt, rest1) =>
        if txt = [] then none
        else
          match rest1 with
          | [] => none
          | c2 :: rest2 =>
            if c2 = '(' then
              match splitAtChar ')' rest2 with
              | none => none
              | some (tgt, rest3) =>
                if isApiTarget tgt then some (txt, tgt, rest3) else none
            else none
    else none

/-- The scanning loop of `pattern.sub(repl, markdown)`: try the pattern
at each position, substitute on a match and continue after it, copy the
character otherwise.  The `fuel` argument bounds the recursion by the
input length; every step consumes at least one character, so fuel equal
to the initial length never runs out (the fuel-exhausted branch returns
the remainder unchanged). -/
def subLoopF (env : Env) : Nat → List Char → NavState →
    List Char × NavState × List Diag
  | 0, cs, st => (cs, st, [])
  | _ + 1, [], st => ([], st, [])
  | fuel + 1, c :: cs, st =>
    match tryMatch (c :: cs) with
    | some (txt, tgt, rest) =>
      let r := repl env st txt tgt
      let r2 := subLoopF env fuel rest r.2.1
      (r.1 ++ r2.1, r2.2.1, r.2.2 ++ r2.2.2)
    | none =>
      let r2 := subLoopF env fuel cs st
      (c :: r2.1, r2.2.1, r2.2.2)

/-- `on_page_markdown` (lines 129-227): rewrite a page, returning the
new text, the updated cache state and the emitted diagnostics. -/
def onPageMarkdown (env : Env) (st : NavState) (markdown : String) :
    String × NavState × List Diag :=
  let r := subLoopF env markdown.data.length markdown.data st
  (⟨r.1⟩, r.2.1, r.2.2)

/-! ## Exception-explicit model

The functions above are total: every collaborator failure is absorbed at
the point where the source catches it.  To verify the propagation policy
(no exception from the hook ever reaches the build pipeline) the same
code is modelled once more in the `Except` monad, where a collaborator's
`.error` outcome is re-raised at its call site and `tryE` marks exactly
the `try`/`except` blocks present in the source.  An uncaught exception
would surface as an `.error` result of `onPageMarkdownE`. -/

/-- A `try`/`except Exception` block: run the body, on an exception run
the handler. -/
def tryE {α : Type} (body : Except String α) (handler : String → Except String α) :
    Except String α :=
  match body with
  | .error e => handler e
  | .ok a => .ok a

/-- The fetch-and-decode `try` block of lines 39-57: the decoded body on
success, `none` when the block failed (bad status or caught exception). -/
def fetchStepE (env : Env) : Except String (Option String) :=
  tryE
    (match env.transport with
     | .error e => .error e
     | .ok (status, html) =>
       if !(decide (200 ≤ status) && decide (status < 300)) then .ok none
       else .ok (some html))
    (fun _ => .ok none)

/-- The parse `try` block of lines 59-126: the built index on success,
`none` when parsing raised. -/
def parseStepE (env : Env) (html : String) : Except String (Option NavMap) :=
  tryE
    (match env.parseDoc html with
     | .error e => .error e
     | .ok entries => .ok (some (buildNavigationIndex entries)))
    (fun _ => .ok none)

/-- `_build_navigation_map` in the exception-explicit model. -/
def buildNavigationMapE (env : Env) (st : NavState) :
    Except String (Option NavMap × NavState) :=
  match st.navMap with
  | some m => .ok (some m, st)
  | none =>
    if st.fetchFailed then .ok (none, st)
    else if !env.bs4Available then .ok (none, { st with fetchFailed := true })
    else
      match fetchStepE env with
      | .error e => .error e
      | .ok none => .ok (none, { st with fetchFailed := true })
      | .ok (some html) =>
        match parseStepE env html with
        | .error e => .error e
        | .ok none => .ok (none, { st with fetchFailed := true })
        | .ok (some m) => .ok (some m, { st with navMap := some m })

/-- `_suggest_keys` in the exception-explicit model: the guarded call to
the fuzzy matcher (lines 158-162). -/
def suggestKeysE (env : Env) (m : NavMap) (k : String) (limit : Nat) :
    Except String (List String) :=
  tryE (env.closeMatches k (suggestCandidates m k) limit) (fun _ => .ok [])

/-- The guarded page-metadata access of lines 185-188. -/
def pagePathOfE (env : Env) : Except String String :=
  tryE env.pagePath (fun _ => .ok "<unknown>")

/-- `repl` in the exception-explicit model. -/
def replE (env : Env) (st : NavState) (txt tgt : List Char) :
    Except String (List Char × NavState × List Diag) :=
  let orig := matchGroup0 txt tgt
  if !strStartsWith ⟨tgt⟩ "api:" then .ok (orig, st, [])
  else
    let key := pyStrip ⟨tgt.drop 4⟩
    if key = "" then .ok (orig, st, [])
    else
      match buildNavigationMapE env st with
      | .error e => .error e
      | .ok b =>
        match b.1 with
        | none => .ok (orig, b.2, [])
        | some m =>
          if m = [] then .ok (orig, b.2, [])
          else
            let href := (dictGet m key).getD ""
            if href = "" then
              match pagePathOfE env with
              | .error e => .error e
              | .ok pagePath =>
                match suggestKeysE env m key 5 with
                | .error e => .error e
                | .ok sugg =>
                  .ok (orig, b.2,
                    Diag.unresolved key pagePath ::
                      (sugg.map Diag.didYouMean ++
                        (dedup (variantHints key)).map Diag.variantHint))
            else
              let display := collapseRuns (pyStrip ⟨txt⟩)
              let resolved := urljoin BASE_URL href
              .ok ('[' :: display.data ++ ']' :: '(' :: resolved.data ++ [')'], b.2, [])

/-- The scanning loop in the exception-explicit model. -/
def subLoopFE (env : Env) : Nat → List Char → NavState →
    Except String (List Char × NavState × List Diag)
  | 0, cs, st => .ok (cs, st, [])
  | _ + 1, [], st => .ok ([], st, [])
  | fuel + 1, c :: cs, st =>
    match tryMatch (c :: cs) with
    | some (txt, tgt, rest) =>
      match replE env st txt tgt with
      | .error e => .error e
      | .ok r =>
        match subLoopFE env fuel rest r.2.1 with
        | .error e => .error e
        | .ok r2 => .ok (r.1 ++ r2.1, r2.2.1, r.2.2 ++ r2.2.2)
    | none =>
      match subLoopFE env fuel cs st with
      | .error e => .error e
      | .ok r2 => .ok (c :: r2.1, r2.2.1, r2.2.2)

/-- `on_page_markdown` in the exception-explicit model. -/
def onPageMarkdownE (env : Env) (st : NavState) (markdown : String) :
    Except String (String × NavState × List Diag) :=
  match subLoopFE env markdown.data.length markdown.data st with
  | .error e => .error e
  | .ok r => .ok (⟨r.1⟩, r.2.1, r.2.2)

/-- A concrete collaborator environment (successful transport, parser
yielding `es`, a fuzzy matcher returning no suggestions) used to
instantiate hypothesis-bearing theorems at concrete inputs. -/
def sampleEnv (es : List NavEntry) : Env where
  bs4Available := true
  transport := .ok (200, "navdoc")
  parseDoc := fun _ => .ok es
  closeMatches := fun _ _ _ => .ok []
  pagePath := .ok "docs/page.md"

/-- The suggestion candidate set as the claim words it: keys sharing the
prefix before the first `::` when the key contains `::`, else the full
key set.  Stated for comparison with `suggestCandidates`, which the
source implements. -/
def claimCandidates (m : NavMap) (k : String) : List String :=
  if containsSub k "::" then
    (m.map Prod.fst).filter
      (fun key => strStartsWith key (extractProjectPfx k ++ "::"))
  else m.map Prod.fst

/-- The suggestion candidate set as amended: the prefix-restricted keys
when the key has a nonempty prefix before a `::` and at least one index
key shares it; the full key set otherwise. -/
def claimCandidatesAmended (m : NavMap) (k : String) : List String :=
  if extractProjectPfx k ≠ "" ∧
      (m.map Prod.fst).filter
        (fun key => strStartsWith key (extractProjectPfx k ++ "::")) ≠ [] then
    (m.map Prod.fst).filter
      (fun key => strStartsWith key (extractProjectPfx k ++ "::"))
  else m.map Prod.fst

/-! ## Lemmas about the index -/

theorem dictGet_append (m₁ m₂ : NavMap) (k : String) :
    dictGet (m₁ ++ m₂) k =
      match dictGet m₁ k with
      | some v => some v
      | none => dictGet m₂ k := by
  induction m₁ with
  | nil => simp [dictGet]
  | cons p rest ih =>
    obtain ⟨a, b⟩ := p
    by_cases h : a = k <;> simp [dictGet, h, ih]

theorem dictGet_insertIfAbsent_of_some {m : NavMap} {k v : String} (k' v' : String)
    (h : dictGet m k = some v) :
    dictGet (insertIfAbsent m k' v') k = some v := by
  unfold insertIfAbsent
  split
  · exact h
  · rw [dictGet_append, h]

theorem isSome_dictGet_insertIfAbsent_self (m : NavMap) (k v : String) :
    (dictGet (insertIfAbsent m k v) k).isSome := by
  unfold insertIfAbsent
  split
  · assumption
  · rw [dictGet_append]
    cases h : dictGet m k with
    | some w => simp
    | none => simp [dictGet]

theorem isSome_dictGet_insertIfAbsent {m : NavMap} {k : String} (k' v' : String)
    (h : (dictGet m k).isSome) :
    (dictGet (insertIfAbsent m k' v') k).isSome := by
  obtain ⟨v, hv⟩ := Option.isSome_iff_exists.mp h
  rw [dictGet_insertIfAbsent_of_some k' v' hv]
  rfl

theorem dictGet_insertIfAbsent_noneOr {m : NavMap} {k v : String} (k' : String)
    (h : dictGet m k = none ∨ dictGet m k = some v) :
    dictGet (insertIfAbsent m k' v) k = none ∨
      dictGet (insertIfAbsent m k' v) k = some v := by
  rcases h with h | h
  · unfold insertIfAbsent
    split
    · exact Or.inl h
    · rw [dictGet_append, h]
      by_cases hk : k' = k <;> simp [dictGet, hk]
  · exact Or.inr (dictGet_insertIfAbsent_of_some k' v h)

theorem dictGet_insertIfAbsent_self_of_noneOr {m : NavMap} {k v : String}
    (h : dictGet m k = none ∨ dictGet m k = some v) :
    dictGet (insertIfAbsent m k v) k = some v := by
  rcases h with h | h
  · unfold insertIfAbsent
    rw [h]
    simp only [Option.isSome_none, Bool.false_eq_true, if_false]
    rw [dictGet_append, h]
    simp [dictGet]
  · exact dictGet_insertIfAbsent_of_some k v h

/-- All the inserts of one entry share one value; folding them preserves
an existing binding. -/
theorem dictGet_foldl_insert_of_some {m : NavMap} {k v : String} (ks : List String)
    (w : String) (h : dictGet m k = some v) :
    dictGet (ks.foldl (fun acc k' => insertIfAbsent acc k' w) m) k = some v := by
  induction ks generalizing m with
  | nil => exact h
  | cons k' ks ih => exact ih (dictGet_insertIfAbsent_of_some k' w h)

theorem isSome_dictGet_foldl_insert {m : NavMap} {k : String} (ks : List String)
    (w : String) (h : (dictGet m k).isSome) :
    (dictGet (ks.foldl (fun acc k' => insertIfAbsent acc k' w) m) k).isSome := by
  induction ks generalizing m with
  | nil => exact h
  | cons k' ks ih => exact ih (isSome_dictGet_insertIfAbsent k' w h)

theorem dictGet_foldl_insert_noneOr {m : NavMap} {k v : String} (ks : List String)
    (h : dictGet m k = none ∨ dictGet m k = some v) :
    dictGet (ks.foldl (fun acc k' => insertIfAbsent acc k' v) m) k = none ∨
      dictGet (ks.foldl (fun acc k' => insertIfAbsent acc k' v) m) k = some v := by
  induction ks generalizing m with
  | nil => exact h
  | cons k' ks ih => exact ih (dictGet_insertIfAbsent_noneOr k' h)

/-- If `k` is among the keys an entry inserts (all with value `v`) and
`k` was previously unbound or bound to `v`, it ends bound to `v`. -/
theorem dictGet_foldl_insert_of_mem {m : NavMap} {k v : String} {ks : List String}
    (hmem : k ∈ ks) (h : dictGet m k = none ∨ dictGet m k = some v) :
    dictGet (ks.foldl (fun acc k' => insertIfAbsent acc k' v) m) k = some v := by
  induction ks generalizing m with
  | nil => cases hmem
  | cons k' ks ih =>
    rcases List.mem_cons.mp hmem with rfl | hmem'
    · exact dictGet_foldl_insert_of_some ks v
        (dictGet_insertIfAbsent_self_of_noneOr h)
    · exact ih hmem' (dictGet_insertIfAbsent_noneOr k' h)

theorem dictGet_processEntry_of_some {m : NavMap} {k v : String} (e : NavEntry)
    (h : dictGet m k = some v) :
    dictGet (processEntry m e) k = some v := by
  unfold processEntry
  cases hp : entryPlan e with
  | none => exact h
  | some p => exact dictGet_foldl_insert_of_some p.1 p.2 h

theorem isSome_dictGet_processEntry {m : NavMap} {k : String} (e : NavEntry)
    (h : (dictGet m k).isSome) :
    (dictGet (processEntry m e) k).isSome := by
  unfold processEntry
  cases hp : entryPlan e with
  | none => exact h
  | some p => exact isSome_dictGet_foldl_insert p.1 p.2 h

theorem dictGet_foldl_processEntry_of_some {m : NavMap} {k v : String}
    (l : List NavEntry) (h : dictGet m k = some v) :
    dictGet (l.foldl processEntry m) k = some v := by
  induction l generalizing m with
  | nil => exact h
  | cons e l ih => exact ih (dictGet_processEntry_of_some e h)

theorem isSome_dictGet_foldl_processEntry {m : NavMap} {k : String}
    (l : List NavEntry) (h : (dictGet m k).isSome) :
    (dictGet (l.foldl processEntry m) k).isSome := by
  induction l generalizing m with
  | nil => exact h
  | cons e l ih => exact ih (isSome_dictGet_processEntry e h)

theorem dictGet_none_not_mem_keys {m : NavMap} {k : String}
    (h : dictGet m k = none) : k ∉ m.map Prod.fst := by
  induction m with
  | nil => simp
  | cons p rest ih =>
    obtain ⟨a, b⟩ := p
    by_cases hk : a = k
    · simp [dictGet, hk] at h
    · simp only [dictGet, hk, if_false] at h
      simp only [List.map_cons, List.mem_cons]
      rintro (rfl | hmem)
      · exact hk rfl
      · exact ih h hmem

theorem keysNodup_insertIfAbsent {m : NavMap} (k v : String)
    (h : (m.map Prod.fst).Nodup) :
    ((insertIfAbsent m k v).map Prod.fst).Nodup := by
  unfold insertIfAbsent
  split
  · exact h
  · rw [List.map_append]
    refine List.Nodup.append h (by simp) ?_
    intro a ha hb
    simp only [List.map_cons, List.map_nil, List.mem_singleton] at hb
    subst hb
    next hnone =>
      exact absurd ha (dictGet_none_not_mem_keys (Option.not_isSome_iff_eq_none.mp hnone))

theorem keysNodup_foldl_insert {m : NavMap} (ks : List String) (v : String)
    (h : (m.map Prod.fst).Nodup) :
    (((ks.foldl (fun acc k' => insertIfAbsent acc k' v) m)).map Prod.fst).Nodup := by
  induction ks generalizing m with
  | nil => exact h
  | cons k' ks ih => exact ih (keysNodup_insertIfAbsent k' v h)

theorem keysNodup_processEntry {m : NavMap} (e : NavEntry)
    (h : (m.map Prod.fst).Nodup) :
    ((processEntry m e).map Prod.fst).Nodup := by
  unfold processEntry
  cases hp : entryPlan e with
  | none => exact h
  | some p => exact keysNodup_foldl_insert p.1 p.2 h

theorem keysNodup_buildNavigationIndex (doc : List NavEntry) :
    ((buildNavigationIndex doc).map Prod.fst).Nodup := by
  have general : ∀ (l : List NavEntry) (m : NavMap), (m.map Prod.fst).Nodup →
      ((l.foldl processEntry m).map Prod.fst).Nodup := by
    intro l
    induction l with
    | nil => exact fun m h => h
    | cons e l ih => exact fun m h => ih _ (keysNodup_processEntry e h)
  exact general doc [] (by simp)

theorem processEntry_eq_of_plan {m : NavMap} {e : NavEntry} {ks : List String}
    {v : String} (hplan : entryPlan e = some (ks, v)) :
    processEntry m e = ks.foldl (fun acc k' => insertIfAbsent acc k' v) m := by
  unfold processEntry
  rw [hplan]

theorem isSome_dictGet_foldl_insert_of_mem {m : NavMap} {k v : String}
    {ks : List String} (hmem : k ∈ ks) :
    (dictGet (ks.foldl (fun acc k' => insertIfAbsent acc k' v) m) k).isSome := by
  cases h : dictGet m k with
  | some w => exact isSome_dictGet_foldl_insert ks v (by simp [h])
  | none =>
    rw [dictGet_foldl_insert_of_mem hmem (Or.inl h)]
    rfl

theorem buildNavigationIndex_decomp (pre post : List NavEntry) (e : NavEntry) :
    buildNavigationIndex (pre ++ e :: post) =
      post.foldl processEntry (processEntry (buildNavigationIndex pre) e) := by
  unfold buildNavigationIndex
  rw [List.foldl_append, List.foldl_cons]

theorem entryPlan_of_valid {e : NavEntry} {href : String}
    (hp : e.pageid ≠ "") (he : e.href = some href) (hh : href ≠ "") :
    entryPlan e = some (variantKeys e.pageid, urljoin NAV_URL href) := by
  unfold entryPlan
  rw [if_neg hp, he]
  simp [hh]

theorem variantKeys_triple {pageid base suffix : String}
    (hsplit : splitOnce pageid "///" = (base, some suffix)) :
    base ∈ variantKeys pageid ∧ replaceAllChar '/' '.' base ∈ variantKeys pageid := by
  unfold variantKeys
  rw [hsplit]
  simp

theorem variantKeys_double {pageid key before after : String} {rest0 : Option String}
    (hsplit0 : splitOnce pageid "///" = (key, rest0))
    (hsplit2 : splitOnce key "//" = (before, some after))
    (htr : trimmedOf before after ≠ "") :
    trimmedOf before after ∈ variantKeys pageid ∧
      dotAll (trimmedOf before after) ∈ variantKeys pageid := by
  unfold variantKeys
  rw [hsplit0]
  simp only
  unfold trimKeys
  rw [hsplit2]
  simp [htr]

/-- Both key variants `k₁`, `k₂` of an entry `e` with plan value `v` end
up present in the full index; when neither was bound before the entry
was processed, both end up bound to `v`. -/
theorem navIndex_two_variant_keys (pre post : List NavEntry) (e : NavEntry)
    {ks : List String} {v : String} (k₁ k₂ : String)
    (hplan : entryPlan e = some (ks, v)) (h₁ : k₁ ∈ ks) (h₂ : k₂ ∈ ks) :
    ((dictGet (buildNavigationIndex (pre ++ e :: post)) k₁).isSome ∧
      (dictGet (buildNavigationIndex (pre ++ e :: post)) k₂).isSome) ∧
    (dictGet (buildNavigationIndex pre) k₁ = none →
      dictGet (buildNavigationIndex pre) k₂ = none →
      dictGet (buildNavigationIndex (pre ++ e :: post)) k₁ = some v ∧
      dictGet (buildNavigationIndex (pre ++ e :: post)) k₂ = some v) := by
  rw [buildNavigationIndex_decomp pre post e, processEntry_eq_of_plan hplan]
  refine ⟨⟨?_, ?_⟩, ?_⟩
  · exact isSome_dictGet_foldl_processEntry post (isSome_dictGet_foldl_insert_of_mem h₁)
  · exact isSome_dictGet_foldl_processEntry post (isSome_dictGet_foldl_insert_of_mem h₂)
  · intro hf₁ hf₂
    constructor
    · exact dictGet_foldl_processEntry_of_some post
        (dictGet_foldl_insert_of_mem h₁ (Or.inl hf₁))
    · exact dictGet_foldl_processEntry_of_some post
        (dictGet_foldl_insert_of_mem h₂ (Or.inl hf₂))

/-- C1 (amended): for an entry whose pageid splits at the first `///`
into base `base` and suffix, the built index contains the base key and
the dotted variant of the base key (`base` with every slash replaced by
a period — equal to `base` itself when `base` is slash-free); when
neither key was bound by an earlier entry, both map to this entry's
resolved URL. -/
theorem navIndex_tripleSlash_keys (pre post : List NavEntry) (e : NavEntry)
    (href base suffix : String)
    (hp : e.pageid ≠ "") (he : e.href = some href) (hh : href ≠ "")
    (hsplit : splitOnce e.pageid "///" = (base, some suffix)) :
    ((dictGet (buildNavigationIndex (pre ++ e :: post)) base).isSome ∧
      (dictGet (buildNavigationIndex (pre ++ e :: post))
        (replaceAllChar '/' '.' base)).isSome) ∧
    (dictGet (buildNavigationIndex pre) base = none →
      dictGet (buildNavigationIndex pre) (replaceAllChar '/' '.' base) = none →
      dictGet (buildNavigationIndex (pre ++ e :: post)) base =
        some (urljoin NAV_URL href) ∧
      dictGet (buildNavigationIndex (pre ++ e :: post))
        (replaceAllChar '/' '.' base) = some (urljoin NAV_URL href)) := by
  obtain ⟨h₁, h₂⟩ := variantKeys_triple hsplit
  exact navIndex_two_variant_keys pre post e base (replaceAllChar '/' '.' base)
    (entryPlan_of_valid hp he hh) h₁ h₂

/-- C1 witness: the pageid `proj/mod/Cls///x` yields both `proj/mod/Cls`
and `proj.mod.Cls`, mapping to the entry's resolved URL. -/
theorem navIndex_tripleSlash_keys_witness :
    splitOnce "proj/mod/Cls///x" "///" = ("proj/mod/Cls", some "x") ∧
    dictGet (buildNavigationIndex [⟨"proj/mod/Cls///x", some "mod/Cls/index.html"⟩])
      "proj/mod/Cls" = some "https://api.koog.ai/mod/Cls/index.html" ∧
    dictGet (buildNavigationIndex [⟨"proj/mod/Cls///x", some "mod/Cls/index.html"⟩])
      "proj.mod.Cls" = some "https://api.koog.ai/mod/Cls/index.html" := by
  have h := (navIndex_tripleSlash_keys [] []
    ⟨"proj/mod/Cls///x", some "mod/Cls/index.html"⟩ "mod/Cls/index.html"
    "proj/mod/Cls" "x" (by decide) rfl (by decide) (by decide)).2
    (by decide) (by decide)
  have hu : urljoin NAV_URL "mod/Cls/index.html" =
      "https://api.koog.ai/mod/Cls/index.html" := by decide
  have hrep : replaceAllChar '/' '.' "proj/mod/Cls" = "proj.mod.Cls" := by decide
  obtain ⟨h1, h2⟩ := h
  rw [hu] at h1
  rw [hrep, hu] at h2
  exact ⟨by decide, h1, h2⟩

/-- C1 counterexample: for the pageid `A///B/C` the code derives the
dotted variant from the base key `A` (which is slash-free), so the index
contains `A` but not `A.B.C`, contrary to the claim. -/
theorem navIndex_tripleSlash_keys_cex :
    (dictGet (buildNavigationIndex [⟨"A///B/C", some "x.html"⟩]) "A").isSome ∧
    dictGet (buildNavigationIndex [⟨"A///B/C", some "x.html"⟩]) "A.B.C" = none := by
  decide

/-- C2 (amended): for an entry whose base key contains `//`, the built
index contains the trimmed key (everything before the `//` plus the
first path segment after it) and its dotted form, provided the trimmed
key is nonempty; when neither was bound by an earlier-processed entry or
variant, both map to this entry's resolved URL (first insertion wins
otherwise). -/
theorem navIndex_doubleSlash_keys (pre post : List NavEntry) (e : NavEntry)
    (href key before after : String) (rest0 : Option String)
    (hp : e.pageid ≠ "") (he : e.href = some href) (hh : href ≠ "")
    (hsplit0 : splitOnce e.pageid "///" = (key, rest0))
    (hsplit2 : splitOnce key "//" = (before, some after))
    (htr : trimmedOf before after ≠ "") :
    ((dictGet (buildNavigationIndex (pre ++ e :: post)) (trimmedOf before after)).isSome ∧
      (dictGet (buildNavigationIndex (pre ++ e :: post))
        (dotAll (trimmedOf before after))).isSome) ∧
    (dictGet (buildNavigationIndex pre) (trimmedOf before after) = none →
      dictGet (buildNavigationIndex pre) (dotAll (trimmedOf before after)) = none →
      dictGet (buildNavigationIndex (pre ++ e :: post)) (trimmedOf before after) =
        some (urljoin NAV_URL href) ∧
      dictGet (buildNavigationIndex (pre ++ e :: post))
        (dotAll (trimmedOf before after)) = some (urljoin NAV_URL href)) := by
  obtain ⟨h₁, h₂⟩ := variantKeys_double hsplit0 hsplit2 htr
  exact navIndex_two_variant_keys pre post e (trimmedOf before after)
    (dotAll (trimmedOf before after)) (entryPlan_of_valid hp he hh) h₁ h₂

/-- C2 witness: `pkg//member/extra` yields the trimmed key `pkg//member`
and the dotted-trimmed key `pkg.member`, both mapping to the entry's
resolved URL. -/
theorem navIndex_doubleSlash_keys_witness :
    trimmedOf "pkg" "member/extra" = "pkg//member" ∧
    dictGet (buildNavigationIndex [⟨"pkg//member/extra", some "h2.html"⟩])
      "pkg//member" = some "https://api.koog.ai/h2.html" ∧
    dictGet (buildNavigationIndex [⟨"pkg//member/extra", some "h2.html"⟩])
      "pkg.member" = some "https://api.koog.ai/h2.html" := by
  have h := (navIndex_doubleSlash_keys [] [] ⟨"pkg//member/extra", some "h2.html"⟩
    "h2.html" "pkg//member/extra" "pkg" "member/extra" none
    (by decide) rfl (by decide) (by decide) (by decide) (by decide)).2
    (by decide) (by decide)
  have hu : urljoin NAV_URL "h2.html" = "https://api.koog.ai/h2.html" := by decide
  have htr : trimmedOf "pkg" "member/extra" = "pkg//member" := by decide
  have hdot : dotAll (trimmedOf "pkg" "member/extra") = "pkg.member" := by decide
  obtain ⟨h1, h2⟩ := h
  rw [htr, hu] at h1
  rw [hdot, hu] at h2
  exact ⟨by decide, h1, h2⟩

/-- C2 counterexample: when an earlier entry already bound the trimmed
key, a later entry's trimmed variant keeps the earlier URL (first
insertion wins), so the trimmed key does not map to the later entry's
resolved URL as the claim states. -/
theorem navIndex_doubleSlash_keys_cex :
    urljoin NAV_URL "h2.html" = "https://api.koog.ai/h2.html" ∧
    dictGet (buildNavigationIndex
        [⟨"pkg//member", some "h1.html"⟩, ⟨"pkg//member/extra", some "h2.html"⟩])
      "pkg//member" = some "https://api.koog.ai/h1.html" ∧
    ("https://api.koog.ai/h1.html" : String) ≠ "https://api.koog.ai/h2.html" := by
  decide

/-- C8: during index construction every key is inserted at most once
(the key list of the built index has no duplicates) and the
first-inserted value for a key wins: a binding present after processing
a prefix of the document is never overwritten by later entries or
variants. -/
theorem navIndex_first_insert_wins :
    (∀ doc : List NavEntry, ((buildNavigationIndex doc).map Prod.fst).Nodup) ∧
    (∀ (pre post : List NavEntry) (k v : String),
      dictGet (buildNavigationIndex pre) k = some v →
      dictGet (buildNavigationIndex (pre ++ post)) k = some v) := by
  refine ⟨keysNodup_buildNavigationIndex, ?_⟩
  intro pre post k v h
  unfold buildNavigationIndex at h ⊢
  rw [List.foldl_append]
  exact dictGet_foldl_processEntry_of_some post h

/-- C8 witness: a later entry re-deriving the key `K` does not overwrite
the first-inserted URL. -/
theorem navIndex_first_insert_wins_witness :
    dictGet (buildNavigationIndex [⟨"K", some "h1.html"⟩]) "K" =
      some "https://api.koog.ai/h1.html" ∧
    dictGet (buildNavigationIndex
        ([⟨"K", some "h1.html"⟩] ++ [⟨"K", some "h2.html"⟩])) "K" =
      some "https://api.koog.ai/h1.html" :=
  ⟨by decide,
    navIndex_first_insert_wins.2 [⟨"K", some "h1.html"⟩] [⟨"K", some "h2.html"⟩]
      "K" "https://api.koog.ai/h1.html" (by decide)⟩

/-! ## The builder cache -/

theorem buildMap_cached (env : Env) (st : NavState) (m : NavMap)
    (h : st.navMap = some m) : buildNavigationMap env st = (some m, st) := by
  unfold buildNavigationMap
  rw [h]

theorem buildMap_failedSticky (env : Env) (st : NavState)
    (h1 : st.navMap = none) (h2 : st.fetchFailed = true) :
    buildNavigationMap env st = (none, st) := by
  unfold buildNavigationMap
  rw [h1]
  simp [h2]

/-- A build attempt from the fresh state ends in one of the two terminal
states: a cached index or the sticky failure sentinel. -/
theorem buildMap_outcome (env : Env) :
    (∃ m : NavMap, buildNavigationMap env initState = (some m, ⟨some m, false⟩)) ∨
      buildNavigationMap env initState = (none, ⟨none, true⟩) := by
  by_cases hb : env.bs4Available
  · cases htr : env.transport with
    | error e => right; simp [buildNavigationMap, initState, hb, htr]
    | ok p =>
      obtain ⟨status, html⟩ := p
      by_cases hs : (decide (200 ≤ status) && decide (status < 300)) = true
      · cases hpd : env.parseDoc html with
        | error e => right; simp [buildNavigationMap, initState, hb, htr, hs, hpd]
        | ok entries =>
          left
          exact ⟨buildNavigationIndex entries,
            by simp [buildNavigationMap, initState, hb, htr, hs, hpd]⟩
      · right; simp [buildNavigationMap, initState, hb, htr, hs]
  · right; simp [buildNavigationMap, initState, hb]

/-- C3: once a build attempt completed, no later call touches the
network.  A cached index is returned immediately and a recorded failure
returns the unavailable result immediately — in both conjuncts the
environment (hence the transport outcome) is universally quantified and
does not influence the result, which formalises the absence of a fetch;
the third conjunct shows that the state left by the first call from the
fresh state is terminal: every later call, under any environment,
returns the same result and leaves the state unchanged. -/
theorem buildMap_fetch_once :
    (∀ (env : Env) (st : NavState) (m : NavMap), st.navMap = some m →
      buildNavigationMap env st = (some m, st)) ∧
    (∀ (env : Env) (st : NavState), st.navMap = none → st.fetchFailed = true →
      buildNavigationMap env st = (none, st)) ∧
    (∀ (env env' : Env) (r : Option NavMap) (st' : NavState),
      buildNavigationMap env initState = (r, st') →
      buildNavigationMap env' st' = (r, st')) := by
  refine ⟨buildMap_cached, buildMap_failedSticky, ?_⟩
  intro env env' r st' h
  rcases buildMap_outcome env with ⟨m, hm⟩ | hm
  · rw [h] at hm
    obtain ⟨h1, h2⟩ := Prod.mk.injEq .. ▸ hm
    subst h1 h2
    exact buildMap_cached env' _ m rfl
  · rw [h] at hm
    obtain ⟨h1, h2⟩ := Prod.mk.injEq .. ▸ hm
    subst h1 h2
    exact buildMap_failedSticky env' _ rfl rfl

/-- C3 witness: a cached index and a recorded failure are both returned
unchanged even under an environment whose transport is down, and the
state left by a failed first attempt is terminal. -/
theorem buildMap_fetch_once_witness :
    buildNavigationMap { sampleEnv [] with transport := .error "network down" }
      ⟨some [("K", "u.html")], false⟩ =
      (some [("K", "u.html")], ⟨some [("K", "u.html")], false⟩) ∧
    buildNavigationMap { sampleEnv [] with transport := .error "network down" }
      ⟨none, true⟩ = (none, ⟨none, true⟩) ∧
    buildNavigationMap (sampleEnv [⟨"K", some "x.html"⟩]) ⟨none, true⟩ =
      (none, ⟨none, true⟩) :=
  ⟨buildMap_fetch_once.1 _ _ _ rfl,
    buildMap_fetch_once.2.1 _ _ rfl rfl,
    buildMap_fetch_once.2.2 { sampleEnv [] with transport := .error "network down" }
      (sampleEnv [⟨"K", some "x.html"⟩]) none ⟨none, true⟩ (by decide)⟩

/-! ## The scanner -/

theorem splitAtChar_eq {stop : Char} {cs pre post : List Char}
    (h : splitAtChar stop cs = some (pre, post)) :
    cs = pre ++ stop :: post ∧ stop ∉ pre := by
  induction cs generalizing pre post with
  | nil => simp [splitAtChar] at h
  | cons c cs ih =>
    unfold splitAtChar at h
    by_cases hc : c = stop
    · rw [if_pos hc] at h
      simp only [Option.some.injEq, Prod.mk.injEq] at h
      obtain ⟨rfl, rfl⟩ := h
      exact ⟨by simp [hc], by simp⟩
    · rw [if_neg hc] at h
      cases hsp : splitAtChar stop cs with
      | none => rw [hsp] at h; cases h
      | some p =>
        obtain ⟨pre', post'⟩ := p
        rw [hsp] at h
        simp only [Option.some.injEq, Prod.mk.injEq] at h
        obtain ⟨rfl, rfl⟩ := h
        obtain ⟨h1, h2⟩ := ih hsp
        refine ⟨by rw [h1]; rfl, ?_⟩
        intro hmem
        rcases List.mem_cons.mp hmem with rfl | hmem'
        · exact hc rfl
        · exact h2 hmem'

theorem splitAtChar_append (stop : Char) (pre post : List Char) (hpre : stop ∉ pre) :
    splitAtChar stop (pre ++ stop :: post) = some (pre, post) := by
  induction pre with
  | nil => simp [splitAtChar]
  | cons c pre ih =>
    have hc : ¬(c = stop) := fun h => hpre (h ▸ List.mem_cons_self c pre)
    have hpre' : stop ∉ pre := fun hm => hpre (List.mem_cons_of_mem c hm)
    simp [splitAtChar, hc, ih hpre']

theorem tryMatch_eq {cs txt tgt rest : List Char}
    (h : tryMatch cs = some (txt, tgt, rest)) :
    cs = matchGroup0 txt tgt ++ rest ∧ txt ≠ [] ∧ ']' ∉ txt ∧ ')' ∉ tgt ∧
      isApiTarget tgt = true := by
  cases cs with
  | nil => simp [tryMatch] at h
  | cons c cs1 =>
    simp only [tryMatch] at h
    split at h
    · rename_i hc
      split at h
      · exact absurd h (by simp)
      · rename_i txt' rest1 heq1
        split at h
        · exact absurd h (by simp)
        · rename_i ht
          split at h
          · exact absurd h (by simp)
          · rename_i c2 rest2
            split at h
            · rename_i hc2
              split at h
              · exact absurd h (by simp)
              · rename_i tgt' rest3 heq3
                split at h
                · rename_i hapi
                  simp only [Option.some.injEq, Prod.mk.injEq] at h
                  obtain ⟨rfl, rfl, rfl⟩ := h
                  obtain ⟨e1, m1⟩ := splitAtChar_eq heq1
                  obtain ⟨e2, m2⟩ := splitAtChar_eq heq3
                  subst hc hc2
                  refine ⟨?_, ht, m1, m2, hapi⟩
                  rw [e1, e2]
                  simp [matchGroup0]
                · exact absurd h (by simp)
            · exact absurd h (by simp)
    · exact absurd h (by simp)

theorem tryMatch_shape (txt tgt rest : List Char) (htxt : txt ≠ [])
    (hm1 : ']' ∉ txt) (hm2 : ')' ∉ tgt) (hapi : isApiTarget tgt = true) :
    tryMatch (matchGroup0 txt tgt ++ rest) = some (txt, tgt, rest) := by
  have hshape : matchGroup0 txt tgt ++ rest =
      '[' :: (txt ++ ']' :: '(' :: (tgt ++ ')' :: rest)) := by
    simp [matchGroup0]
  rw [hshape]
  simp [tryMatch, splitAtChar_append ']' txt ('(' :: (tgt ++ ')' :: rest)) hm1,
    splitAtChar_append ')' tgt rest hm2, htxt, hapi]

theorem subLoopF_id_of_noMatch (env : Env) (fuel : Nat) (cs : List Char)
    (st : NavState) (h : ∀ n, tryMatch (cs.drop n) = none) :
    subLoopF env fuel cs st = (cs, st, []) := by
  induction fuel generalizing cs with
  | zero => rfl
  | succ fuel ih =>
    cases cs with
    | nil => rfl
    | cons c cs =>
      have h0 := h 0
      simp only [List.drop_zero] at h0
      unfold subLoopF
      rw [h0, ih cs (fun n => by simpa [List.drop_succ_cons] using h (n + 1))]

theorem repl_emptyMap (env : Env) (st : NavState) (txt tgt : List Char)
    (hst : st.navMap = some []) :
    repl env st txt tgt = (matchGroup0 txt tgt, st, []) := by
  unfold repl
  rw [buildMap_cached env st [] hst]
  split
  · rfl
  · split
    · rename_i heq
      simp at heq
    · rename_i m heq
      simp at heq
      subst heq
      split
      · simp
      · rename_i hne
        exact absurd rfl hne

theorem subLoopF_emptyMap (env : Env) (fuel : Nat) (cs : List Char)
    (st : NavState) (hst : st.navMap = some []) :
    subLoopF env fuel cs st = (cs, st, []) := by
  induction fuel generalizing cs with
  | zero => rfl
  | succ fuel ih =>
    cases cs with
    | nil => rfl
    | cons c cs =>
      cases hm : tryMatch (c :: cs) with
      | none =>
        simp only [subLoopF, hm, ih cs]
      | some t =>
        obtain ⟨txt, tgt, rest⟩ := t
        simp only [subLoopF, hm, repl_emptyMap env st txt tgt hst, ih rest]
        obtain ⟨hcs, -, -, -, -⟩ := tryMatch_eq hm
        simp [hcs]

/-- C10: a successfully built but empty index behaves like an
unavailable one in the rewriter — every page is returned unchanged with
no diagnostics (in particular no miss diagnostic and no suggestion) —
while the empty index remains the cached success state: the builder
returns it for every environment, so no further fetch is attempted. -/
theorem emptyIndex_rewrite_inert (env : Env) (st : NavState)
    (hst : st.navMap = some []) :
    (∀ text : String, onPageMarkdown env st text = (text, st, [])) ∧
    buildNavigationMap env st = (some [], st) := by
  refine ⟨?_, buildMap_cached env st [] hst⟩
  intro text
  unfold onPageMarkdown
  rw [subLoopF_emptyMap env _ _ _ hst]

/-- C10 witness: with the empty index cached, a page with an `api:` link
passes through unchanged without diagnostics even when the transport is
down, and the builder keeps returning the cached empty index. -/
theorem emptyIndex_rewrite_inert_witness :
    onPageMarkdown { sampleEnv [] with transport := .error "network down" }
      ⟨some [], false⟩ "[T](api:K)" = ("[T](api:K)", ⟨some [], false⟩, []) ∧
    buildNavigationMap { sampleEnv [] with transport := .error "network down" }
      ⟨some [], false⟩ = (some [], ⟨some [], false⟩) :=
  ⟨(emptyIndex_rewrite_inert _ _ rfl).1 "[T](api:K)",
    (emptyIndex_rewrite_inert _ _ rfl).2⟩

/-! ## The resolver on a single match -/

theorem strStartsWith_api (K : List Char) :
    strStartsWith ⟨'a' :: 'p' :: 'i' :: ':' :: K⟩ "api:" = true := rfl

theorem repl_hit (env : Env) (st : NavState) (m : NavMap) (txt K : List Char)
    (H : String) (hst : st.navMap = some m) (hm : m ≠ [])
    (hkey : pyStrip ⟨K⟩ ≠ "") (hlookup : dictGet m (pyStrip ⟨K⟩) = some H)
    (hH : H ≠ "") :
    repl env st txt ('a' :: 'p' :: 'i' :: ':' :: K) =
      ('[' :: (collapseRuns (pyStrip ⟨txt⟩)).data ++ ']' ::
        '(' :: (urljoin BASE_URL H).data ++ [')'], st, []) := by
  unfold repl
  rw [buildMap_cached env st m hst]
  have h2 : List.drop 4 ('a' :: 'p' :: 'i' :: ':' :: K) = K := rfl
  simp only [strStartsWith_api, Bool.not_true, Bool.false_eq_true, if_false, h2,
    hkey, hlookup, Option.getD_some, hm, hH, if_neg]

theorem repl_miss (env : Env) (st : NavState) (m : NavMap) (txt K : List Char)
    (hst : st.navMap = some m) (hm : m ≠ [])
    (hkey : pyStrip ⟨K⟩ ≠ "")
    (hmiss : (dictGet m (pyStrip ⟨K⟩)).getD "" = "") :
    repl env st txt ('a' :: 'p' :: 'i' :: ':' :: K) =
      missResult env m (pyStrip ⟨K⟩)
        (matchGroup0 txt ('a' :: 'p' :: 'i' :: ':' :: K)) st := by
  unfold repl
  rw [buildMap_cached env st m hst]
  have h2 : List.drop 4 ('a' :: 'p' :: 'i' :: ':' :: K) = K := rfl
  simp [strStartsWith_api, h2, hkey, hm, hmiss]

theorem repl_emptyKey (env : Env) (st : NavState) (txt K : List Char)
    (hkey : pyStrip ⟨K⟩ = "") :
    repl env st txt ('a' :: 'p' :: 'i' :: ':' :: K) =
      (matchGroup0 txt ('a' :: 'p' :: 'i' :: ':' :: K), st, []) := by
  unfold repl
  have h2 : List.drop 4 ('a' :: 'p' :: 'i' :: ':' :: K) = K := rfl
  simp [strStartsWith_api, h2, hkey]

/-- Every URL produced by resolving against the fixed base carries a
scheme (it is absolute in the RFC sense). -/
theorem urljoin_base_hasScheme (url : String) :
    hasScheme (urljoin BASE_URL url) = true := by
  unfold urljoin
  split
  · rfl
  · split
    · rename_i h
      exact h
    · split
      · rfl
      · split
        · rfl
        · rfl

/-- C4 (amended): for every match whose stripped key is found in the
index with a nonempty href `H`, the rewrite substitutes
`[display](absolute-url)` where `display` is the display text with
leading and trailing whitespace removed and every remaining whitespace
run collapsed to a single hyphen (so `"Foo   Bar\nBaz"` becomes
`"Foo-Bar-Baz"`), and `absolute-url` is `H` resolved against the fixed
base `https://api.koog.ai/`, a URL guaranteed to carry a scheme. -/
theorem repl_hit_rewrites (env : Env) (st : NavState) (m : NavMap)
    (txt K : List Char) (H : String) (hst : st.navMap = some m) (hm : m ≠ [])
    (hkey : pyStrip ⟨K⟩ ≠ "") (hlookup : dictGet m (pyStrip ⟨K⟩) = some H)
    (hH : H ≠ "") :
    repl env st txt ('a' :: 'p' :: 'i' :: ':' :: K) =
      ('[' :: (collapseRuns (pyStrip ⟨txt⟩)).data ++ ']' ::
        '(' :: (urljoin BASE_URL H).data ++ [')'], st, []) ∧
    hasScheme (urljoin BASE_URL H) = true ∧
    collapseRuns (pyStrip "Foo   Bar\nBaz") = "Foo-Bar-Baz" :=
  ⟨repl_hit env st m txt K H hst hm hkey hlookup hH,
    urljoin_base_hasScheme H, by decide⟩

/-- C4 witness: a concrete hit substitutes the collapsed display text
and the absolutised href. -/
theorem repl_hit_rewrites_witness :
    repl (sampleEnv []) ⟨some [("K", "x.html")], false⟩ "Foo   Bar\nBaz".data
      ('a' :: 'p' :: 'i' :: ':' :: "K".data) =
      ('[' :: (collapseRuns (pyStrip ⟨"Foo   Bar\nBaz".data⟩)).data ++ ']' ::
        '(' :: (urljoin BASE_URL "x.html").data ++ [')'],
        ⟨some [("K", "x.html")], false⟩, []) ∧
    hasScheme (urljoin BASE_URL "x.html") = true ∧
    collapseRuns (pyStrip "Foo   Bar\nBaz") = "Foo-Bar-Baz" :=
  repl_hit_rewrites (sampleEnv []) ⟨some [("K", "x.html")], false⟩
    [("K", "x.html")] "Foo   Bar\nBaz".data "K".data "x.html"
    rfl (by decide) (by decide) (by decide) (by decide)

/-- C4 counterexample: the display text is stripped before collapsing —
display `" T"` yields `"T"`, not the `"-T"` that collapsing every
whitespace run to a hyphen would give. -/
theorem repl_hit_rewrites_cex :
    (onPageMarkdown (sampleEnv []) ⟨some [("K", "x.html")], false⟩
        "[ T](api:K)").1 = "[T](https://api.koog.ai/x.html)" ∧
    ("[T](https://api.koog.ai/x.html)" : String) ≠
      "[-T](https://api.koog.ai/x.html)" := by
  decide

/-- C9 (amended): the lookup key is the text following the `api:` prefix
with surrounding whitespace stripped and no other normalization; a match
whose key is empty after stripping is left unchanged, and otherwise the
result is determined by looking up the stripped key verbatim (miss and
hit cases). -/
theorem repl_key_verbatim (env : Env) (st : NavState) (m : NavMap)
    (txt K : List Char) (H : String) :
    (pyStrip ⟨K⟩ = "" →
      repl env st txt ('a' :: 'p' :: 'i' :: ':' :: K) =
        (matchGroup0 txt ('a' :: 'p' :: 'i' :: ':' :: K), st, [])) ∧
    (st.navMap = some m → m ≠ [] → pyStrip ⟨K⟩ ≠ "" →
      (dictGet m (pyStrip ⟨K⟩)).getD "" = "" →
      repl env st txt ('a' :: 'p' :: 'i' :: ':' :: K) =
        missResult env m (pyStrip ⟨K⟩)
          (matchGroup0 txt ('a' :: 'p' :: 'i' :: ':' :: K)) st) ∧
    (st.navMap = some m → m ≠ [] → pyStrip ⟨K⟩ ≠ "" →
      dictGet m (pyStrip ⟨K⟩) = some H → H ≠ "" →
      repl env st txt ('a' :: 'p' :: 'i' :: ':' :: K) =
        ('[' :: (collapseRuns (pyStrip ⟨txt⟩)).data ++ ']' ::
          '(' :: (urljoin BASE_URL H).data ++ [')'], st, [])) :=
  ⟨repl_emptyKey env st txt K,
    fun hst hm hkey hmiss => repl_miss env st m txt K hst hm hkey hmiss,
    fun hst hm hkey hlookup hH => repl_hit env st m txt K H hst hm hkey hlookup hH⟩

/-- C9 witness: an all-whitespace key leaves the match unchanged, and a
key with surrounding whitespace resolves through its stripped form. -/
theorem repl_key_verbatim_witness :
    repl (sampleEnv []) ⟨some [("K", "x.html")], false⟩ "T".data
      ('a' :: 'p' :: 'i' :: ':' :: " ".data) =
      (matchGroup0 "T".data ('a' :: 'p' :: 'i' :: ':' :: " ".data),
        ⟨some [("K", "x.html")], false⟩, []) ∧
    repl (sampleEnv []) ⟨some [("K", "x.html")], false⟩ "T".data
      ('a' :: 'p' :: 'i' :: ':' :: " K ".data) =
      ('[' :: (collapseRuns (pyStrip ⟨"T".data⟩)).data ++ ']' ::
        '(' :: (urljoin BASE_URL "x.html").data ++ [')'],
        ⟨some [("K", "x.html")], false⟩, []) :=
  ⟨(repl_key_verbatim (sampleEnv []) ⟨some [("K", "x.html")], false⟩
      [("K", "x.html")] "T".data " ".data "x.html").1 (by decide),
    (repl_key_verbatim (sampleEnv []) ⟨some [("K", "x.html")], false⟩
      [("K", "x.html")] "T".data " K ".data "x.html").2.2
      rfl (by decide) (by decide) (by decide) (by decide)⟩

/-- C9 counterexample: the match `[T](api: K)` resolves — the code looks
up the stripped key `"K"` — although the exact text following the
scheme prefix, `" K"`, is not a key of the index, so the lookup is not
performed on the unnormalized text. -/
theorem repl_key_verbatim_cex :
    dictGet [("K", "x.html")] " K" = none ∧
    (onPageMarkdown (sampleEnv []) ⟨some [("K", "x.html")], false⟩
        "[T](api: K)").1 = "[T](https://api.koog.ai/x.html)" ∧
    ("[T](https://api.koog.ai/x.html)" : String) ≠ "[T](api: K)" := by
  decide

/-! ## No-match analysis for the round trip -/

theorem tryMatch_not_lbracket {c : Char} (cs : List Char) (hc : c ≠ '[') :
    tryMatch (c :: cs) = none := by
  simp [tryMatch, hc]

theorem noMatch_nil : ∀ n : Nat, tryMatch (List.drop n ([] : List Char)) = none := by
  intro n
  simp [tryMatch]

theorem noMatch_cons {c : Char} {cs : List Char}
    (h0 : tryMatch (c :: cs) = none)
    (h : ∀ n, tryMatch (cs.drop n) = none) :
    ∀ n, tryMatch ((c :: cs).drop n) = none := by
  intro n
  cases n with
  | zero => simpa using h0
  | succ n => simpa [List.drop_succ_cons] using h n

theorem noMatch_no_lbracket {cs : List Char} (h : '[' ∉ cs) :
    ∀ n, tryMatch (cs.drop n) = none := by
  induction cs with
  | nil => exact noMatch_nil
  | cons c cs ih =>
    have hc : c ≠ '[' := fun he => h (he ▸ List.mem_cons_self c cs)
    exact noMatch_cons (tryMatch_not_lbracket cs hc)
      (ih fun hm => h (List.mem_cons_of_mem c hm))

/-- A bracketed span whose parenthesised target is not an `api:` target
never matches the pattern. -/
theorem tryMatch_bracket_no_api {t' url : List Char}
    (ht : ']' ∉ t') (hu2 : ')' ∉ url) (hu3 : isApiTarget url = false) :
    tryMatch ('[' :: (t' ++ ']' :: '(' :: url ++ [')'])) = none := by
  have hsp := splitAtChar_append ']' t' ('(' :: url ++ [')']) ht
  have hsp2 : splitAtChar ')' (url ++ [')']) = some (url, []) := by
    simpa using splitAtChar_append ')' url [] hu2
  simp only [tryMatch, if_true, List.cons_append, List.append_assoc] at hsp ⊢
  rw [hsp]
  by_cases ht' : t' = []
  · simp [ht']
  · simp [ht', hsp2, hu3]

theorem noMatch_inside_txt {t' url : List Char}
    (ht : ']' ∉ t') (hu1 : '[' ∉ url) (hu2 : ')' ∉ url)
    (hu3 : isApiTarget url = false) :
    ∀ n, tryMatch ((t' ++ ']' :: '(' :: url ++ [')']).drop n) = none := by
  induction t' with
  | nil =>
    apply noMatch_no_lbracket
    intro hmem
    rcases List.mem_cons.mp hmem with h | hmem
    · exact absurd h (by decide)
    rcases List.mem_cons.mp hmem with h | hmem
    · exact absurd h (by decide)
    rcases List.mem_append.mp hmem with h | h
    · exact hu1 h
    · exact absurd (List.mem_singleton.mp h) (by decide)
  | cons c t' ih =>
    have ht'' : ']' ∉ t' := fun hm => ht (List.mem_cons_of_mem c hm)
    have ih' := ih ht''
    refine noMatch_cons ?_ ih'
    by_cases hc : c = '['
    · subst hc
      exact tryMatch_bracket_no_api ht'' hu2 hu3
    · exact tryMatch_not_lbracket _ hc

/-- No suffix of a rewritten link `[t'](url)` matches the pattern, when
the display `t'` contains no `]` and the URL contains no `[` or `)` and
is not an `api:` target. -/
theorem noMatch_output {t' url : List Char}
    (ht : ']' ∉ t') (hu1 : '[' ∉ url) (hu2 : ')' ∉ url)
    (hu3 : isApiTarget url = false) :
    ∀ n, tryMatch ((('[' :: t' ++ ']' :: '(' :: url ++ [')'])).drop n) = none := by
  have h0 : tryMatch ('[' :: (t' ++ ']' :: '(' :: url ++ [')'])) = none :=
    tryMatch_bracket_no_api ht hu2 hu3
  exact noMatch_cons h0 (noMatch_inside_txt ht hu1 hu2 hu3)

theorem mem_collapseWs {c : Char} : ∀ {cs : List Char},
    c ∈ collapseWs cs → c ∈ cs ∨ c = '-'
  | [], h => by simp [collapseWs] at h
  | [c'], h => by
    simp only [collapseWs] at h
    split at h
    · right
      simpa using h
    · left
      simpa using h
  | c' :: d :: cs, h => by
    simp only [collapseWs] at h
    split at h
    · split at h
      · rcases mem_collapseWs h with h1 | h1
        · exact Or.inl (List.mem_cons_of_mem c' h1)
        · exact Or.inr h1
      · rcases List.mem_cons.mp h with h1 | h1
        · exact Or.inr h1
        · rcases mem_collapseWs h1 with h2 | h2
          · exact Or.inl (List.mem_cons_of_mem c' h2)
          · exact Or.inr h2
    · rcases List.mem_cons.mp h with h1 | h1
      · exact Or.inl (h1 ▸ List.mem_cons_self c' _)
      · rcases mem_collapseWs h1 with h2 | h2
        · exact Or.inl (List.mem_cons_of_mem c' h2)
        · exact Or.inr h2

theorem mem_pyStrip {c : Char} {s : String} (h : c ∈ (pyStrip s).data) :
    c ∈ s.data := by
  unfold pyStrip at h
  have h1 := List.mem_reverse.mp h
  have h2 := (List.dropWhile_sublist isPySpace).subset h1
  have h3 := List.mem_reverse.mp h2
  exact (List.dropWhile_sublist isPySpace).subset h3

theorem collapsed_no_rbracket {T : List Char} (hT2 : ']' ∉ T) :
    ']' ∉ (collapseRuns (pyStrip ⟨T⟩)).data := by
  intro h
  rcases @mem_collapseWs ']' ((pyStrip ⟨T⟩).data) h with h1 | h1
  · exact hT2 (mem_pyStrip h1)
  · exact absurd h1 (by decide)

theorem subLoopF_nil (env : Env) (fuel : Nat) (st : NavState) :
    subLoopF env fuel [] st = ([], st, []) := by
  cases fuel <;> rfl

/-- A page consisting of exactly one match rewrites to the replacement
`repl` produces for it. -/
theorem onPageMarkdown_single (env : Env) (st : NavState)
    (txt tgt out : List Char) (ds : List Diag) (st' : NavState)
    (hmatch : tryMatch (matchGroup0 txt tgt) = some (txt, tgt, []))
    (hrepl : repl env st txt tgt = (out, st', ds)) :
    onPageMarkdown env st ⟨matchGroup0 txt tgt⟩ = (⟨out⟩, st', ds) := by
  unfold onPageMarkdown
  have hcons : matchGroup0 txt tgt = '[' :: (txt ++ ']' :: '(' :: (tgt ++ [')'])) := by
    simp [matchGroup0]
  rw [show (⟨matchGroup0 txt tgt⟩ : String).data = matchGroup0 txt tgt from rfl]
  rw [hcons] at hmatch ⊢
  simp only [List.length_cons]
  simp only [subLoopF, hmatch, hrepl, subLoopF_nil]
  simp

theorem onPageMarkdown_noMatch (env : Env) (st : NavState) (text : String)
    (h : ∀ n, tryMatch (text.data.drop n) = none) :
    onPageMarkdown env st text = (text, st, []) := by
  unfold onPageMarkdown
  rw [subLoopF_id_of_noMatch env _ _ _ h]

theorem noMatch_of_le {cs : List Char}
    (h : ∀ n, n ≤ cs.length → tryMatch (cs.drop n) = none) :
    ∀ n, tryMatch (cs.drop n) = none := by
  intro n
  by_cases hn : n ≤ cs.length
  · exact h n hn
  · have hd : cs.drop n = [] := List.drop_eq_nil_of_le (by omega)
    rw [hd]
    rfl

/-- C5 (amended): for a whitespace-trimmed key `K` present in the index
with a nonempty href `H` whose resolved URL carries no `api:` target and
none of the characters `[` or `)`, the single-match page `[T](api:K)`
rewrites to `[T'](absolute(H))`, re-feeding that output is a no-op (it
contains no match), and any text with no occurrence of the match
pattern — in particular text whose links are all ordinary — is returned
unchanged.  (For an href that itself uses the `api:` scheme, the output
retains an `api:` target and a second rewrite can change it again; see
the counterexample.) -/
theorem rewrite_roundTrip (env : Env) (st : NavState) (m : NavMap)
    (T K : List Char) (H : String)
    (hst : st.navMap = some m) (hm : m ≠ [])
    (hT : T ≠ []) (hT2 : ']' ∉ T) (hK : ')' ∉ K)
    (hkey : pyStrip ⟨K⟩ ≠ "") (hlookup : dictGet m (pyStrip ⟨K⟩) = some H)
    (hH : H ≠ "")
    (hu1 : '[' ∉ (urljoin BASE_URL H).data)
    (hu2 : ')' ∉ (urljoin BASE_URL H).data)
    (hu3 : isApiTarget (urljoin BASE_URL H).data = false) :
    onPageMarkdown env st ⟨matchGroup0 T ('a' :: 'p' :: 'i' :: ':' :: K)⟩ =
      (⟨matchGroup0 (collapseRuns (pyStrip ⟨T⟩)).data (urljoin BASE_URL H).data⟩,
        st, []) ∧
    onPageMarkdown env st
        ⟨matchGroup0 (collapseRuns (pyStrip ⟨T⟩)).data (urljoin BASE_URL H).data⟩ =
      (⟨matchGroup0 (collapseRuns (pyStrip ⟨T⟩)).data (urljoin BASE_URL H).data⟩,
        st, []) ∧
    (∀ text : String, (∀ n, tryMatch (text.data.drop n) = none) →
      onPageMarkdown env st text = (text, st, [])) := by
  have hKne : K ≠ [] := by
    intro h
    exact hkey (by rw [h]; rfl)
  have htgt : ')' ∉ ('a' :: 'p' :: 'i' :: ':' :: K) := by
    intro hmem
    rcases List.mem_cons.mp hmem with h | hmem
    · exact absurd h (by decide)
    rcases List.mem_cons.mp hmem with h | hmem
    · exact absurd h (by decide)
    rcases List.mem_cons.mp hmem with h | hmem
    · exact absurd h (by decide)
    rcases List.mem_cons.mp hmem with h | hmem
    · exact absurd h (by decide)
    exact hK hmem
  have hapi : isApiTarget ('a' :: 'p' :: 'i' :: ':' :: K) = true := by
    have hl : 0 < K.length := List.length_pos.mpr hKne
    simp [isApiTarget, isPrefixL, decide_eq_true_eq]
    omega
  have hmatch : tryMatch (matchGroup0 T ('a' :: 'p' :: 'i' :: ':' :: K)) =
      some (T, 'a' :: 'p' :: 'i' :: ':' :: K, []) := by
    simpa using tryMatch_shape T ('a' :: 'p' :: 'i' :: ':' :: K) [] hT hT2 htgt hapi
  have hrepl := repl_hit env st m T K H hst hm hkey hlookup hH
  have h1 := onPageMarkdown_single env st T ('a' :: 'p' :: 'i' :: ':' :: K)
    (matchGroup0 (collapseRuns (pyStrip ⟨T⟩)).data (urljoin BASE_URL H).data)
    [] st hmatch hrepl
  refine ⟨h1, ?_, fun text h => onPageMarkdown_noMatch env st text h⟩
  apply onPageMarkdown_noMatch
  intro n
  exact noMatch_output (collapsed_no_rbracket hT2) hu1 hu2 hu3 n

/-- C5 witness: a concrete hit round-trips — the output carries no
`api:` target and re-rewriting it is a no-op — and an ordinary link is
never altered. -/
theorem rewrite_roundTrip_witness :
    onPageMarkdown (sampleEnv []) ⟨some [("K", "x.html")], false⟩
      ⟨matchGroup0 "T".data ('a' :: 'p' :: 'i' :: ':' :: "K".data)⟩ =
      (⟨matchGroup0 (collapseRuns (pyStrip ⟨"T".data⟩)).data
          (urljoin BASE_URL "x.html").data⟩,
        ⟨some [("K", "x.html")], false⟩, []) ∧
    onPageMarkdown (sampleEnv []) ⟨some [("K", "x.html")], false⟩
      ⟨matchGroup0 (collapseRuns (pyStrip ⟨"T".data⟩)).data
          (urljoin BASE_URL "x.html").data⟩ =
      (⟨matchGroup0 (collapseRuns (pyStrip ⟨"T".data⟩)).data
          (urljoin BASE_URL "x.html").data⟩,
        ⟨some [("K", "x.html")], false⟩, []) ∧
    onPageMarkdown (sampleEnv []) ⟨some [("K", "x.html")], false⟩
      "[T](https://example.com)" =
      ("[T](https://example.com)", ⟨some [("K", "x.html")], false⟩, []) := by
  obtain ⟨h1, h2, h3⟩ := rewrite_roundTrip (sampleEnv [])
    ⟨some [("K", "x.html")], false⟩ [("K", "x.html")] "T".data "K".data "x.html"
    rfl (by decide) (by decide) (by decide) (by decide) (by decide) (by decide)
    (by decide) (by decide) (by decide) (by decide)
  exact ⟨h1, h2, h3 "[T](https://example.com)" (noMatch_of_le (by decide))⟩

/-- C5 counterexample: a stored href can itself use the `api:` scheme —
`urljoin` passes a reference carrying its own scheme through unchanged —
so the rewritten output still carries an `api:` target, and feeding the
output through the resolver again changes the text a second time. -/
theorem rewrite_roundTrip_cex :
    (onPageMarkdown (sampleEnv [⟨"K", some "api:x"⟩, ⟨"x", some "y.html"⟩])
        initState "[T](api:K)").1 = "[T](api:x)" ∧
    (onPageMarkdown (sampleEnv [⟨"K", some "api:x"⟩, ⟨"x", some "y.html"⟩])
        initState "[T](api:x)").1 = "[T](https://api.koog.ai/y.html)" ∧
    ("[T](https://api.koog.ai/y.html)" : String) ≠ "[T](api:x)" := by
  decide

/-! ## Miss diagnostics -/

theorem suggestCandidates_eq_amended (m : NavMap) (k : String) :
    suggestCandidates m k = claimCandidatesAmended m k := by
  simp only [suggestCandidates, claimCandidatesAmended]
  by_cases hp : extractProjectPfx k = ""
  · simp [hp]
  · by_cases hf : (m.map Prod.fst).filter
        (fun key => strStartsWith key (extractProjectPfx k ++ "::")) = [] <;>
      simp [hp, hf]

theorem countP_didYouMean_zero (l : List String) :
    (l.map Diag.didYouMean).countP
      (fun d => match d with | Diag.unresolved _ _ => true | _ => false) = 0 := by
  induction l with
  | nil => rfl
  | cons a l ih => simp [List.countP_cons, ih]

theorem countP_variantHint_zero (l : List String) :
    (l.map Diag.variantHint).countP
      (fun d => match d with | Diag.unresolved _ _ => true | _ => false) = 0 := by
  induction l with
  | nil => rfl
  | cons a l ih => simp [List.countP_cons, ih]

theorem countP_missDiags (key pagePath : String) (sugg hints : List String) :
    ((Diag.unresolved key pagePath ::
        (sugg.map Diag.didYouMean ++ hints.map Diag.variantHint)).countP
      (fun d => match d with | Diag.unresolved _ _ => true | _ => false)) = 1 := by
  simp [List.countP_cons, List.countP_append, countP_didYouMean_zero,
    countP_variantHint_zero]

theorem suggestKeys_length_le (env : Env) (m : NavMap) (k : String) (n : Nat)
    (hcm : ∀ (k' : String) (cands : List String) (n' : Nat) (l : List String),
      env.closeMatches k' cands n' = .ok l → l.length ≤ n') :
    (suggestKeys env m k n).length ≤ n := by
  unfold suggestKeys
  cases hc : env.closeMatches k (suggestCandidates m k) n with
  | ok l => exact hcm _ _ _ _ hc
  | error e => simp

/-- C6 (amended): for a match whose stripped key is absent from the
index, the original match text is returned unchanged, the state is
untouched, and the diagnostics consist of exactly one entry naming the
unresolved key and the page, followed by the "did you mean" suggestions
and the variant hints; the suggestions are at most 5 (given the fuzzy
matcher's limit contract); the suggestion candidates are the index keys
sharing the key's nonempty prefix before the first `::` when such keys
exist, and the full key set otherwise (also when the key has no `::` or
no index key shares the prefix); and processing of remaining matches
continues after a miss. -/
theorem miss_diagnostics (env : Env) (st : NavState) (m : NavMap)
    (txt K : List Char)
    (hst : st.navMap = some m) (hm : m ≠ [])
    (hkey : pyStrip ⟨K⟩ ≠ "")
    (hmiss : (dictGet m (pyStrip ⟨K⟩)).getD "" = "")
    (hcm : ∀ (k' : String) (cands : List String) (n' : Nat) (l : List String),
      env.closeMatches k' cands n' = .ok l → l.length ≤ n') :
    repl env st txt ('a' :: 'p' :: 'i' :: ':' :: K) =
      (matchGroup0 txt ('a' :: 'p' :: 'i' :: ':' :: K), st,
        Diag.unresolved (pyStrip ⟨K⟩) (pagePathOf env) ::
          ((suggestKeys env m (pyStrip ⟨K⟩) 5).map Diag.didYouMean ++
            (dedup (variantHints (pyStrip ⟨K⟩))).map Diag.variantHint)) ∧
    ((repl env st txt ('a' :: 'p' :: 'i' :: ':' :: K)).2.2.countP
      (fun d => match d with | Diag.unresolved _ _ => true | _ => false)) = 1 ∧
    (suggestKeys env m (pyStrip ⟨K⟩) 5).length ≤ 5 ∧
    suggestCandidates m (pyStrip ⟨K⟩) = claimCandidatesAmended m (pyStrip ⟨K⟩) ∧
    (onPageMarkdown (sampleEnv [⟨"G", some "g.html"⟩]) initState
        "[A](api:MISS) and [B](api:G)").1 =
      "[A](api:MISS) and [B](https://api.koog.ai/g.html)" := by
  have h0 := repl_miss env st m txt K hst hm hkey hmiss
  refine ⟨h0, ?_, suggestKeys_length_le env m _ 5 hcm,
    suggestCandidates_eq_amended m _, by decide⟩
  rw [h0]
  exact countP_missDiags _ _ _ _

/-- C6 witness: a concrete miss leaves the text unchanged and emits the
expected diagnostics. -/
theorem miss_diagnostics_witness :
    repl (sampleEnv []) ⟨some [("a::b::c", "u.html")], false⟩ "T".data
      ('a' :: 'p' :: 'i' :: ':' :: "a::zz".data) =
      (matchGroup0 "T".data ('a' :: 'p' :: 'i' :: ':' :: "a::zz".data),
        ⟨some [("a::b::c", "u.html")], false⟩,
        Diag.unresolved (pyStrip ⟨"a::zz".data⟩) (pagePathOf (sampleEnv [])) ::
          ((suggestKeys (sampleEnv []) [("a::b::c", "u.html")]
              (pyStrip ⟨"a::zz".data⟩) 5).map Diag.didYouMean ++
            (dedup (variantHints (pyStrip ⟨"a::zz".data⟩))).map
              Diag.variantHint)) ∧
    ((repl (sampleEnv []) ⟨some [("a::b::c", "u.html")], false⟩ "T".data
        ('a' :: 'p' :: 'i' :: ':' :: "a::zz".data)).2.2.countP
      (fun d => match d with | Diag.unresolved _ _ => true | _ => false)) = 1 ∧
    (suggestKeys (sampleEnv []) [("a::b::c", "u.html")]
      (pyStrip ⟨"a::zz".data⟩) 5).length ≤ 5 ∧
    suggestCandidates [("a::b::c", "u.html")] (pyStrip ⟨"a::zz".data⟩) =
      claimCandidatesAmended [("a::b::c", "u.html")] (pyStrip ⟨"a::zz".data⟩) ∧
    (onPageMarkdown (sampleEnv [⟨"G", some "g.html"⟩]) initState
        "[A](api:MISS) and [B](api:G)").1 =
      "[A](api:MISS) and [B](https://api.koog.ai/g.html)" :=
  miss_diagnostics (sampleEnv []) ⟨some [("a::b::c", "u.html")], false⟩
    [("a::b::c", "u.html")] "T".data "a::zz".data rfl (by decide) (by decide)
    (by decide)
    (fun k' cands n' l h => by
      injection h with h'
      rw [← h']
      simp)

/-- C6 counterexample: for the key `a::b` and an index whose only key is
`x`, no index key shares the prefix `a::`, and the code falls back to
the full key set instead of the prefix-restricted (empty) candidate set
the claim describes; a matcher returning its candidates then produces
the suggestion `x`, impossible under the claimed restriction. -/
theorem miss_diagnostics_cex :
    suggestCandidates [("x", "u")] "a::b" = ["x"] ∧
    claimCandidates [("x", "u")] "a::b" = [] ∧
    suggestKeys { sampleEnv [] with closeMatches := fun _ cands _ => .ok cands }
      [("x", "u")] "a::b" 5 = ["x"] := by
  decide

/-! ## The exception-explicit model never raises -/

theorem buildMapE_eq (env : Env) (st : NavState) :
    buildNavigationMapE env st = .ok (buildNavigationMap env st) := by
  unfold buildNavigationMapE buildNavigationMap fetchStepE parseStepE tryE
  cases st.navMap with
  | some m => rfl
  | none =>
    cases hf : st.fetchFailed
    · cases hb : env.bs4Available
      · rfl
      · cases htr : env.transport with
        | error e => rfl
        | ok p =>
          obtain ⟨status, html⟩ := p
          cases hs : (!(decide (200 ≤ status) && decide (status < 300)))
          · cases hpd : env.parseDoc html with
            | error e => simp [hs, hpd]
            | ok entries => simp [hs, hpd]
          · simp [hs]
    · rfl

theorem replE_eq (env : Env) (st : NavState) (txt tgt : List Char) :
    replE env st txt tgt = .ok (repl env st txt tgt) := by
  unfold replE repl
  simp only [buildMapE_eq env st]
  split
  · rfl
  · split
    · rfl
    · cases hnav : (buildNavigationMap env st).1 with
      | none => simp
      | some m =>
        by_cases hm : m = []
        · simp [hm]
        · by_cases hh : (dictGet m (pyStrip ⟨tgt.drop 4⟩)).getD "" = ""
          · simp only [hm, hh, if_pos, if_neg, missResult]
            unfold pagePathOfE suggestKeysE tryE pagePathOf suggestKeys
            cases hpp : env.pagePath <;>
              cases hcmr : env.closeMatches (pyStrip ⟨tgt.drop 4⟩)
                (suggestCandidates m (pyStrip ⟨tgt.drop 4⟩)) 5 <;>
              simp [hm, hh]
          · simp [hm, hh]

theorem subLoopFE_eq (env : Env) (fuel : Nat) (cs : List Char) (st : NavState) :
    subLoopFE env fuel cs st = .ok (subLoopF env fuel cs st) := by
  induction fuel generalizing cs st with
  | zero => rfl
  | succ fuel ih =>
    cases cs with
    | nil => rfl
    | cons c cs =>
      cases hm : tryMatch (c :: cs) with
      | none => simp only [subLoopFE, subLoopF, hm, ih cs st]
      | some t =>
        obtain ⟨txt, tgt, rest⟩ := t
        simp only [subLoopFE, subLoopF, hm, replE_eq env st txt tgt,
          ih rest (repl env st txt tgt).2.1]

theorem onPageMarkdownE_eq (env : Env) (st : NavState) (markdown : String) :
    onPageMarkdownE env st markdown = .ok (onPageMarkdown env st markdown) := by
  unfold onPageMarkdownE onPageMarkdown
  rw [subLoopFE_eq]

/-- C7: no exception reaches the caller of the page rewrite or of the
index builder — in the exception-explicit model, where every
collaborator failure is re-raised at its call site and only the
source's `try`/`except` blocks catch, both entry points return `.ok` of
the value model's result for every environment (hence for every input
text, page-metadata outcome, navigation-document content and transport
outcome); in particular a failing fuzzy matcher yields the empty
suggestion list rather than aborting the rewrite. -/
theorem no_exception_propagates :
    (∀ (env : Env) (st : NavState) (markdown : String),
      onPageMarkdownE env st markdown = .ok (onPageMarkdown env st markdown)) ∧
    (∀ (env : Env) (st : NavState),
      buildNavigationMapE env st = .ok (buildNavigationMap env st)) ∧
    (∀ (env : Env) (m : NavMap) (k : String) (n : Nat) (e : String),
      env.closeMatches k (suggestCandidates m k) n = .error e →
      suggestKeys env m k n = []) :=
  ⟨onPageMarkdownE_eq, buildMapE_eq,
    fun env m k n e h => by unfold suggestKeys; rw [h]⟩

/-- C7 witness: with every collaborator failing, the rewrite still
returns a value (the text unchanged) and a failing matcher yields no
suggestions. -/
theorem no_exception_propagates_witness :
    onPageMarkdownE
      { bs4Available := true, transport := .error "connection refused",
        parseDoc := fun _ => .error "parse error",
        closeMatches := fun _ _ _ => .error "matcher failed",
        pagePath := .error "no metadata" } initState "[T](api:K)" =
      .ok (onPageMarkdown
        { bs4Available := true, transport := .error "connection refused",
          parseDoc := fun _ => .error "parse error",
          closeMatches := fun _ _ _ => .error "matcher failed",
          pagePath := .error "no metadata" } initState "[T](api:K)") ∧
    suggestKeys { sampleEnv [] with closeMatches := fun _ _ _ => .error "boom" }
      [("a", "u")] "k" 5 = [] :=
  ⟨no_exception_propagates.1 _ initState "[T](api:K)",
    no_exception_propagates.2.2 _ [("a", "u")] "k" 5 "boom" rfl⟩
